import Mathlib

/-!
Verification of the payshare ledger/balance engine
(`payshare/purchases/models.py`).

The embedding models a snapshot of the rows relevant to a single
collective.  Money amounts are exact decimals, embedded as rationals
(the claims about the balance algorithm are stated in exact decimal
arithmetic).  Django querysets become list filters; the pre-save signal
handlers become the checks performed by guarded create operations that
either persist a row or return the raised error with the store
unchanged; a raised exception in `stats` (the division by zero when the
collective has no active members) is modelled as `none`.
-/

namespace Payshare

/-- One row of the external `auth.User` table: primary key and the
`is_active` flag used by `Collective.members`. -/
structure User where
  id : Nat
  is_active : Bool
deriving DecidableEq, Repr

/-- One `Purchase` row: price (exact decimal), buyer (user id) and the
soft-delete flag. -/
structure Purchase where
  id : Nat
  price : ℚ
  buyer : Nat
  deleted : Bool
deriving DecidableEq, Repr

/-- One `Liquidation` row: amount (exact decimal), debtor and creditor
(user ids) and the soft-delete flag. -/
structure Liquidation where
  id : Nat
  amount : ℚ
  debtor : Nat
  creditor : Nat
  deleted : Bool
deriving DecidableEq, Repr

/-- Snapshot of the rows belonging to one collective: the user table,
the user ids having a `Membership` row with this collective, and the
collective's `Purchase` and `Liquidation` rows. -/
structure Collective where
  userRows : List User
  membershipRows : List Nat
  purchaseRows : List Purchase
  liquidationRows : List Liquidation
deriving DecidableEq, Repr

/-- `Collective.is_member`: a `Membership.objects.get` existence check.
It does not look at `is_active`. -/
def Collective.is_member (c : Collective) (uid : Nat) : Bool :=
  decide (uid ∈ c.membershipRows)

/-- `Collective.members`: `User.objects.filter(membership__collective__id=..,
is_active=True)`, as the list of ids of active users having a membership. -/
def Collective.members (c : Collective) : List Nat :=
  (c.userRows.filter (fun u => u.is_active && decide (u.id ∈ c.membershipRows))).map User.id

/-- `Collective.purchases`: non-deleted purchase rows whose buyer is in
`members`. -/
def Collective.purchases (c : Collective) : List Purchase :=
  c.purchaseRows.filter (fun p => !p.deleted && decide (p.buyer ∈ c.members))

/-- `Collective.liquidations`: non-deleted liquidation rows where the
creditor or the debtor is in `members` (the source combines the two
`Q` objects with `|`). -/
def Collective.liquidations (c : Collective) : List Liquidation :=
  c.liquidationRows.filter
    (fun l => !l.deleted && (decide (l.creditor ∈ c.members) || decide (l.debtor ∈ c.members)))

/-- Local `overall_purchased` of `Collective.stats`. -/
def Collective.overall_purchased (c : Collective) : ℚ :=
  (c.purchases.map Purchase.price).sum

/-- Local `overall_debt` of `Collective.stats`. -/
def Collective.overall_debt (c : Collective) : ℚ :=
  (c.liquidations.map Liquidation.amount).sum

/-- Local `per_member` of `Collective.stats`: `overall_purchased / num_members`. -/
def Collective.per_member (c : Collective) : ℚ :=
  c.overall_purchased / (c.members.length : ℚ)

/-- Local `member_purchased` of the loop body in `Collective.stats`. -/
def Collective.member_purchased (c : Collective) (m : Nat) : ℚ :=
  ((c.purchases.filter (fun p => decide (p.buyer = m))).map Purchase.price).sum

/-- Local `credit` of the loop body in `Collective.stats`. -/
def Collective.credit (c : Collective) (m : Nat) : ℚ :=
  ((c.liquidations.filter (fun l => decide (l.creditor = m))).map Liquidation.amount).sum

/-- Local `debt` of the loop body in `Collective.stats`. -/
def Collective.debt (c : Collective) (m : Nat) : ℚ :=
  ((c.liquidations.filter (fun l => decide (l.debtor = m))).map Liquidation.amount).sum

/-- Local `has_to_pay` of the loop body in `Collective.stats`. -/
def Collective.has_to_pay (c : Collective) (m : Nat) : ℚ :=
  c.per_member - c.member_purchased m - c.credit m + c.debt m

/-- Local `balance` of the loop body: `has_to_pay * -1`, with the
sign-normalisation `if balance == 0: balance = 0` of the source. -/
def Collective.balance (c : Collective) (m : Nat) : ℚ :=
  if c.has_to_pay m * -1 = 0 then 0 else c.has_to_pay m * -1

/-- Local `member_id_to_balance` of `Collective.stats`, as the association
list built by iterating over `collective.members`. -/
def Collective.member_id_to_balance (c : Collective) : List (Nat × ℚ) :=
  c.members.map (fun m => (m, c.balance m))

/-- Stable insertion into a descending list: the new element goes in
front of the first element whose balance it reaches. -/
def insortDesc (x : Nat × ℚ) : List (Nat × ℚ) → List (Nat × ℚ)
  | [] => [x]
  | y :: ys => if y.2 ≤ x.2 then x :: y :: ys else y :: insortDesc x ys

/-- Stable insertion sort, descending by balance.  `sorted(..,
key=item[1], reverse=True)` of the source is a stable sort by the
balance, descending; insertion sort realises the same function. -/
def sortDesc : List (Nat × ℚ) → List (Nat × ℚ)
  | [] => []
  | x :: xs => insortDesc x (sortDesc xs)

/-- Local `sorted_balances`: `sorted(member_id_to_balance.items(),
key=item[1], reverse=True)` — a stable sort by balance, descending. -/
def Collective.sorted_balances (c : Collective) : List (Nat × ℚ) :=
  sortDesc c.member_id_to_balance

/-- Result record of `Collective.stats`. -/
structure Stats where
  overall_purchased : ℚ
  overall_debt : ℚ
  sorted_balances : List (Nat × ℚ)
deriving DecidableEq, Repr

/-- `Collective.stats`.  When the collective has no active member the
source evaluates `float(overall_purchased) / float(0)` and raises
`ZeroDivisionError`; the raised exception is modelled as `none`. -/
def Collective.stats (c : Collective) : Option Stats :=
  if c.members.length = 0 then none
  else
    some { overall_purchased := c.overall_purchased,
           overall_debt := c.overall_debt,
           sorted_balances := c.sorted_balances }

/-- Errors raised by the pre-save signal handlers:
`UserNotMemberOfCollectiveError` (carrying the offending user) and
`LiquidationNeedsTwoDifferentUsersError`. -/
inductive SaveError where
  | notAMember (uid : Nat)
  | sameActor (uid : Nat)
deriving DecidableEq, Repr

/-- Saving a new `Purchase`: `purchase_pre_save_ensure_membership` runs
before the insert; on failure the raised error is returned and the store
is unchanged, otherwise the row is persisted. -/
def create_purchase (c : Collective) (p : Purchase) : Collective × Option SaveError :=
  if c.is_member p.buyer then ({ c with purchaseRows := c.purchaseRows ++ [p] }, none)
  else (c, some (SaveError.notAMember p.buyer))

/-- Saving a new `Liquidation`: `liquidation_pre_save_ensure_constraints`
checks `debtor == creditor` first, then membership of debtor and creditor
in that order (the source iterates over `[instance.debtor,
instance.creditor]`); on failure the raised error is returned and the
store is unchanged. -/
def create_liquidation (c : Collective) (l : Liquidation) : Collective × Option SaveError :=
  if l.debtor = l.creditor then (c, some (SaveError.sameActor l.debtor))
  else if !c.is_member l.debtor then (c, some (SaveError.notAMember l.debtor))
  else if !c.is_member l.creditor then (c, some (SaveError.notAMember l.creditor))
  else ({ c with liquidationRows := c.liquidationRows ++ [l] }, none)

/-- `Collective.add_member`: create a `Membership` row unless `is_member`
already holds. -/
def Collective.add_member (c : Collective) (uid : Nat) : Collective :=
  if c.is_member uid then c
  else { c with membershipRows := c.membershipRows ++ [uid] }

/-- `Purchase.delete`: `self.deleted = True` followed by `self.save()`.
The save re-fires `purchase_pre_save_ensure_membership`, so when the
buyer no longer has a membership row the raised error is returned and
the store is unchanged; otherwise the flagged row replaces every stored
row with its id. -/
def Purchase.delete (p : Purchase) (c : Collective) : Collective × Option SaveError :=
  if c.is_member p.buyer then
    ({ c with purchaseRows := c.purchaseRows.map (fun q => if q.id = p.id then { p with deleted := true } else q) }, none)
  else (c, some (SaveError.notAMember p.buyer))

/-- `Liquidation.delete`: `self.deleted = True` followed by `self.save()`.
The save re-fires `liquidation_pre_save_ensure_constraints` — the
same-actor check, then membership of debtor and creditor in order — so
on failure the raised error is returned and the store is unchanged;
otherwise the flagged row replaces every stored row with its id. -/
def Liquidation.delete (l : Liquidation) (c : Collective) : Collective × Option SaveError :=
  if l.debtor = l.creditor then (c, some (SaveError.sameActor l.debtor))
  else if !c.is_member l.debtor then (c, some (SaveError.notAMember l.debtor))
  else if !c.is_member l.creditor then (c, some (SaveError.notAMember l.creditor))
  else
    ({ c with liquidationRows := c.liquidationRows.map (fun m => if m.id = l.id then { l with deleted := true } else m) }, none)

/-- Direct lookup of a purchase row by id (`Purchase.objects.get(id=..)`). -/
def get_purchase_by_id (c : Collective) (pid : Nat) : Option Purchase :=
  c.purchaseRows.find? (fun p => decide (p.id = pid))

/-- The hashing service: `make_password` produces a salted hash, encoded
as the salt, a separator and the plaintext. -/
def make_password (plaintext : String) (salt : Nat) : String :=
  toString salt ++ "$" ++ plaintext

/-- The hashing service's verify: split off the salt at the first
separator and compare the remainder against the plaintext. -/
def check_password (plaintext stored : String) : Bool :=
  match stored.data.dropWhile (fun ch => ch != '$') with
  | [] => false
  | _ :: rest => rest == plaintext.data

/-- Credential state of a `Collective` row: database id (none before the
first save), the `password` field (holding a hash once saved, or a
plaintext the caller just assigned) and the `token`. -/
structure CollectiveAuth where
  id : Option Nat
  password : String
  token : Nat
deriving DecidableEq, Repr

/-- `Collective._set_password`: hash the current value of the password
field with a fresh salt and rotate the token to a fresh uuid; the fresh
values are passed explicitly. -/
def CollectiveAuth.set_password (c : CollectiveAuth) (salt newToken : Nat) : CollectiveAuth :=
  { c with password := make_password c.password salt, token := newToken }

/-- `Collective.save`: on first save always hash; afterwards re-hash and
rotate the token exactly when the password field differs from the stored
field `password_in_db`. -/
def CollectiveAuth.save (c : CollectiveAuth) (password_in_db : String)
    (salt newToken newId : Nat) : CollectiveAuth :=
  match c.id with
  | none => { c.set_password salt newToken with id := some newId }
  | some _ => if password_in_db ≠ c.password then c.set_password salt newToken else c

/-- `Collective.check_password`. -/
def CollectiveAuth.check_password (c : CollectiveAuth) (plaintext : String) : Bool :=
  Payshare.check_password plaintext c.password

/-- Concrete collective: user 1 active, user 2 inactive, both with a
membership; one non-deleted liquidation of 10 with inactive debtor 2 and
active creditor 1; no purchases. -/
def cEx : Collective :=
  { userRows := [{ id := 1, is_active := true }, { id := 2, is_active := false }],
    membershipRows := [1, 2],
    purchaseRows := [],
    liquidationRows := [{ id := 1, amount := 10, debtor := 2, creditor := 1, deleted := false }] }

/-- The liquidation row of `cEx`. -/
def exLiq : Liquidation :=
  { id := 1, amount := 10, debtor := 2, creditor := 1, deleted := false }

/-- The inactive user of `cEx`. -/
def exUserB : User :=
  { id := 2, is_active := false }

/-- Concrete collective with no user rows and no memberships at all. -/
def cNoMembers : Collective :=
  { userRows := [], membershipRows := [], purchaseRows := [], liquidationRows := [] }

/-- Concrete collective for the soft-delete scenario: two active members
1 and 2, purchase row 1 (price 30, buyer 1) and purchase row 2 (price 20,
buyer 2), no liquidations. -/
def cDel : Collective :=
  { userRows := [{ id := 1, is_active := true }, { id := 2, is_active := true }],
    membershipRows := [1, 2],
    purchaseRows := [{ id := 1, price := 30, buyer := 1, deleted := false },
                     { id := 2, price := 20, buyer := 2, deleted := false }],
    liquidationRows := [] }

/-- The second purchase row of `cDel`. -/
def pRow2 : Purchase :=
  { id := 2, price := 20, buyer := 2, deleted := false }

/-- Stats of `cDel`: per member 25, so member 1 is owed 5 and member 2
owes 5. -/
def sDel : Stats :=
  { overall_purchased := 50, overall_debt := 0, sorted_balances := [(1, 5), (2, -5)] }

/-- A purchase whose buyer 99 has no membership anywhere. -/
def pNonMember : Purchase :=
  { id := 7, price := 5, buyer := 99, deleted := false }

/-- Collective where the buyer (user 7) of purchase row 3 has had the
membership row deleted since the purchase was created: the row exists
but user 7 is no longer a member. -/
def cRevoked : Collective :=
  { userRows := [{ id := 1, is_active := true }, { id := 7, is_active := true }],
    membershipRows := [1],
    purchaseRows := [{ id := 3, price := 12, buyer := 7, deleted := false }],
    liquidationRows := [] }

/-- The purchase row of `cRevoked` whose buyer lost the membership. -/
def pRevoked : Purchase :=
  { id := 3, price := 12, buyer := 7, deleted := false }

/-- A liquidation naming the same non-member 99 as debtor and creditor. -/
def lSameActor : Liquidation :=
  { id := 8, amount := 5, debtor := 99, creditor := 99, deleted := false }

/-- A liquidation between two non-members 98 and 99. -/
def lTwoNonMembers : Liquidation :=
  { id := 9, amount := 5, debtor := 98, creditor := 99, deleted := false }

end Payshare

namespace Payshare

/-! ## Helper lemmas -/

/-- Hashing always changes the field: the encoded hash is strictly longer
than its plaintext. -/
theorem make_password_ne (p : String) (salt : Nat) : make_password p salt ≠ p := by
  intro h
  have hlen := congrArg String.length h
  have h1 : ("$" : String).length = 1 := rfl
  simp only [make_password, String.length_append, h1] at hlen
  omega

/-- Inserting into the descending list is a permutation of consing. -/
theorem insortDesc_perm (x : Nat × ℚ) (l : List (Nat × ℚ)) :
    (insortDesc x l).Perm (x :: l) := by
  induction l with
  | nil => simp [insortDesc]
  | cons y ys ih =>
    unfold insortDesc
    split
    · exact List.Perm.refl _
    · exact (ih.cons y).trans (List.Perm.swap x y ys)

/-- The stable descending sort permutes its input. -/
theorem sortDesc_perm (l : List (Nat × ℚ)) : (sortDesc l).Perm l := by
  induction l with
  | nil => simp [sortDesc]
  | cons x xs ih => exact (insortDesc_perm x (sortDesc xs)).trans (ih.cons x)

/-- Sorting the balances does not change their sum. -/
theorem sortDesc_map_sum (l : List (Nat × ℚ)) :
    ((sortDesc l).map Prod.snd).sum = (l.map Prod.snd).sum :=
  List.Perm.sum_eq ((sortDesc_perm l).map Prod.snd)

/-- Summing a pointwise addition splits into two sums. -/
theorem sum_map_add {α : Type} (l : List α) (f g : α → ℚ) :
    (l.map (fun a => f a + g a)).sum = (l.map f).sum + (l.map g).sum := by
  induction l with
  | nil => simp
  | cons a l ih =>
    simp only [List.map_cons, List.sum_cons, ih]
    ring

/-- An indicator sum over a list avoiding the key vanishes. -/
theorem sum_map_indicator_of_notMem (M : List Nat) (k : Nat) (v : ℚ) (h : k ∉ M) :
    (M.map (fun m => if k = m then v else 0)).sum = 0 := by
  induction M with
  | nil => simp
  | cons m M ih =>
    simp only [List.mem_cons, not_or] at h
    simp [h.1, ih h.2]

/-- An indicator sum over a duplicate-free list picks out the key. -/
theorem sum_map_indicator (M : List Nat) (k : Nat) (v : ℚ) (hM : M.Nodup) :
    (M.map (fun m => if k = m then v else 0)).sum = if k ∈ M then v else 0 := by
  induction M with
  | nil => simp
  | cons m M ih =>
    rcases List.nodup_cons.mp hM with ⟨hm, hM2⟩
    by_cases hk : k = m
    · subst hk
      simp [sum_map_indicator_of_notMem M k v hm]
    · simp [hk, ih hM2]

/-- Exchanging a sum over members of sums over rows keyed to that member
for a single sum over the rows whose key is a member. -/
theorem sum_map_sum_filter {α : Type} (key : α → Nat) (val : α → ℚ) (L : List α)
    (M : List Nat) (hM : M.Nodup) :
    (M.map (fun m => ((L.filter (fun a => decide (key a = m))).map val).sum)).sum
      = ((L.filter (fun a => decide (key a ∈ M))).map val).sum := by
  induction L with
  | nil => simp
  | cons a L ih =>
    have hstep : ∀ m : Nat,
        (((a :: L).filter (fun x => decide (key x = m))).map val).sum
          = (if key a = m then val a else 0)
            + ((L.filter (fun x => decide (key x = m))).map val).sum := by
      intro m
      by_cases h : key a = m
      · simp [List.filter_cons, h]
      · simp [List.filter_cons, h]
    have hmapeq :
        M.map (fun m => (((a :: L).filter (fun x => decide (key x = m))).map val).sum)
          = M.map (fun m => (if key a = m then val a else 0)
              + ((L.filter (fun x => decide (key x = m))).map val).sum) :=
      List.map_congr_left (fun m _ => hstep m)
    rw [hmapeq, sum_map_add, sum_map_indicator M (key a) (val a) hM, ih]
    by_cases h : key a ∈ M
    · simp [List.filter_cons, h]
    · simp [List.filter_cons, h]

/-- Summing a pointwise combination of three member quantities and a
constant, as in the balance formula. -/
theorem sum_map_combo (M : List Nat) (f g h : Nat → ℚ) (d : ℚ) :
    (M.map (fun m => f m + g m - h m - d)).sum
      = (M.map f).sum + (M.map g).sum - (M.map h).sum - (M.length : ℚ) * d := by
  induction M with
  | nil => simp
  | cons m M ih =>
    simp only [List.map_cons, List.sum_cons, List.length_cons, ih]
    push_cast
    ring

/-- Every purchase reaching the stats computation has its buyer among
the active members. -/
theorem purchases_buyer_mem (c : Collective) (p : Purchase) (hp : p ∈ c.purchases) :
    p.buyer ∈ c.members := by
  have h := (List.mem_filter.mp hp).2
  simp only [Bool.and_eq_true, decide_eq_true_eq] at h
  exact h.2

end Payshare

namespace Payshare

/-! ## Claim theorems -/

/-- C2: the specification requires an empty balance set with zero totals
when the collective has no active members, but `stats` evaluates
`overall_purchased / num_members` with `num_members == 0` and raises
`ZeroDivisionError` (modelled as `none`). -/
theorem stats_no_members_raises :
    Collective.stats cNoMembers = none ∧
      Collective.stats cNoMembers
        ≠ some { overall_purchased := 0, overall_debt := 0, sorted_balances := [] } := by
  constructor
  · rfl
  · intro h
    simp [Collective.stats, cNoMembers, Collective.members] at h

/-- C5: creating a purchase whose buyer is not a member fails with
`UserNotMemberOfCollectiveError` naming the buyer, and the store is
returned unchanged: nothing is persisted. -/
theorem create_purchase_nonmember_fails (c : Collective) (p : Purchase)
    (h : c.is_member p.buyer = false) :
    create_purchase c p = (c, some (SaveError.notAMember p.buyer)) := by
  simp [create_purchase, h]

/-- Witness for C5: buyer 99 is not a member of `cEx`. -/
theorem create_purchase_nonmember_fails_witness :
    create_purchase cEx pNonMember = (cEx, some (SaveError.notAMember 99)) :=
  create_purchase_nonmember_fails cEx pNonMember (by decide)

/-- C6: saving a liquidation with equal debtor and creditor fails with
`LiquidationNeedsTwoDifferentUsersError` regardless of membership (the
same-actor check comes first); with distinct actors, membership of the
debtor and then the creditor is asserted before the row is persisted,
and a failed assertion leaves the store unchanged. -/
theorem create_liquidation_checks (c : Collective) (l : Liquidation) :
    (l.debtor = l.creditor →
      create_liquidation c l = (c, some (SaveError.sameActor l.debtor)))
    ∧ (l.debtor ≠ l.creditor → c.is_member l.debtor = false →
      create_liquidation c l = (c, some (SaveError.notAMember l.debtor)))
    ∧ (l.debtor ≠ l.creditor → c.is_member l.debtor = true →
        c.is_member l.creditor = false →
      create_liquidation c l = (c, some (SaveError.notAMember l.creditor)))
    ∧ (l.debtor ≠ l.creditor → c.is_member l.debtor = true →
        c.is_member l.creditor = true →
      create_liquidation c l
        = ({ c with liquidationRows := c.liquidationRows ++ [l] }, none)) := by
  refine ⟨fun h => ?_, fun h hd => ?_, fun h hd hc => ?_, fun h hd hc => ?_⟩
  · simp [create_liquidation, h]
  · simp [create_liquidation, h, hd]
  · simp [create_liquidation, h, hd, hc]
  · simp [create_liquidation, h, hd, hc]

/-- Witness for C6: the same-actor liquidation fails on `cEx` even
though user 99 is not even a member. -/
theorem create_liquidation_checks_witness :
    create_liquidation cEx lSameActor = (cEx, some (SaveError.sameActor 99)) :=
  (create_liquidation_checks cEx lSameActor).1 rfl

/-- C10: when debtor and creditor differ and both are non-members, the
raised error names the debtor — the loop checks the debtor first. -/
theorem liquidation_debtor_checked_first (c : Collective) (l : Liquidation)
    (hne : l.debtor ≠ l.creditor)
    (hd : c.is_member l.debtor = false) (hc : c.is_member l.creditor = false) :
    create_liquidation c l = (c, some (SaveError.notAMember l.debtor)) := by
  simp [create_liquidation, hne, hd]

/-- Witness for C10: users 98 and 99 are both non-members of `cEx`. -/
theorem liquidation_debtor_checked_first_witness :
    create_liquidation cEx lTwoNonMembers = (cEx, some (SaveError.notAMember 98)) :=
  liquidation_debtor_checked_first cEx lTwoNonMembers (by decide) (by decide) (by decide)

/-- C8: `add_member` is idempotent — the second call is a no-op, and
starting from a store satisfying the uniqueness constraint the user ends
up with exactly one membership row. -/
theorem add_member_idempotent (c : Collective) (uid : Nat) :
    (c.add_member uid).add_member uid = c.add_member uid
    ∧ (c.membershipRows.count uid ≤ 1 →
        ((c.add_member uid).add_member uid).membershipRows.count uid = 1) := by
  by_cases h : uid ∈ c.membershipRows
  · have hm : c.is_member uid = true := by simp [Collective.is_member, h]
    constructor
    · simp [Collective.add_member, hm]
    · intro hcount
      have hpos : 0 < c.membershipRows.count uid := List.count_pos_iff.mpr h
      simp [Collective.add_member, hm]
      omega
  · have hm : c.is_member uid = false := by simp [Collective.is_member, h]
    have hm2 : ({ c with membershipRows := c.membershipRows ++ [uid] } : Collective).is_member uid
        = true := by
      simp [Collective.is_member]
    constructor
    · simp [Collective.add_member, hm, hm2]
    · intro hcount
      simp [Collective.add_member, hm, hm2, List.count_append, List.count_eq_zero.mpr h]

/-- Witness for C8 at `cEx` with the fresh user 5. -/
theorem add_member_idempotent_witness :
    ((cEx.add_member 5).add_member 5).membershipRows.count 5 = 1 :=
  (add_member_idempotent cEx 5).2 (by decide)

end Payshare

namespace Payshare

/-- C3 is refuted: assigning the collective's current effective password
(the plaintext still verifies against the stored hash) and saving rotates
the token anyway, because `save` compares the raw `password` field
against the stored hash string, and re-hashing salts afresh. -/
theorem save_same_password_rotates_token :
    check_password "secret" (make_password "secret" 5) = true
    ∧ (CollectiveAuth.save
        { id := some 1, password := "secret", token := 100 }
        (make_password "secret" 5) 7 200 9).token = 200
    ∧ (200 : Nat) ≠ 100 := by
  refine ⟨by decide, ?_, by decide⟩
  rfl

/-- C3 (amended): for an already-saved collective, and with the fresh
token distinct from the current one, the token changes exactly when the
stored `password` field changes.  Assigning any plaintext — including
the current effective password — changes the field, re-hashes it with a
fresh salt and rotates the token; only a save that leaves the field
untouched keeps the token. -/
theorem save_token_change_iff (c : CollectiveAuth) (db : String) (salt tk nid : Nat)
    (hid : c.id ≠ none) (htk : tk ≠ c.token) :
    ((c.save db salt tk nid).token ≠ c.token
      ↔ (c.save db salt tk nid).password ≠ c.password) := by
  obtain ⟨k, hk⟩ : ∃ k, c.id = some k := by
    cases h2 : c.id with
    | none => exact absurd h2 hid
    | some k => exact ⟨k, rfl⟩
  unfold CollectiveAuth.save
  rw [hk]
  by_cases hdb : db = c.password
  · simp [hdb, CollectiveAuth.set_password]
  · simp [hdb, CollectiveAuth.set_password, htk, make_password_ne]

/-- Witness for C3 (amended) at a concrete saved collective. -/
theorem save_token_change_iff_witness :
    ((CollectiveAuth.save { id := some 1, password := "h", token := 100 } "h" 7 200 9).token ≠ 100
      ↔ (CollectiveAuth.save
          { id := some 1, password := "h", token := 100 } "h" 7 200 9).password ≠ "h") :=
  save_token_change_iff { id := some 1, password := "h", token := 100 } "h" 7 200 9
    (by decide) (by decide)

/-- Writing the flagged row into the table commutes with lookup by id. -/
theorem find_update_by_id (rows : List Purchase) (r : Purchase) (k : Nat) (hk : r.id = k) :
    (rows.map (fun q => if q.id = k then r else q)).find? (fun q => decide (q.id = k))
      = (rows.find? (fun q => decide (q.id = k))).map (fun _ => r) := by
  rw [List.find?_map]
  have hcomp : ((fun q : Purchase => decide (q.id = k)) ∘
      fun q => if q.id = k then r else q)
        = fun q : Purchase => decide (q.id = k) := by
    funext q
    by_cases h : q.id = k
    · simp [h, hk]
    · simp [h]
  rw [hcomp]
  cases hfind : rows.find? (fun q => decide (q.id = k)) with
  | none => rfl
  | some a =>
    have ha : a.id = k := by simpa using List.find?_some hfind
    simp [ha]

/-- C7 is refuted as stated: `delete` does not always succeed.  At
`cRevoked` the buyer's membership row is gone, so `delete` re-raises the
membership error from its save, the store is unchanged, and the row is
still stored un-flagged. -/
theorem soft_delete_revoked_membership_cex :
    Purchase.delete pRevoked cRevoked = (cRevoked, some (SaveError.notAMember 7))
    ∧ get_purchase_by_id cRevoked 3 = some pRevoked
    ∧ pRevoked.deleted = false := by
  refine ⟨by decide, by decide, by decide⟩

/-- C7 (amended): `delete` persists through `save`, which re-fires the
pre-save guard; provided the row still passes it — the purchase's buyer
is a member, the liquidation's actors are distinct members — `delete`
succeeds, sets the flag, is idempotent and never resurrects, and the
soft-deleted purchase stays retrievable by id flagged deleted while no
row with its id enters the stats computation.  When the guard fails the
raised error is returned and the store is unchanged. -/
theorem soft_delete_lifecycle (c : Collective) (p : Purchase) (l : Liquidation)
    (hp : c.is_member p.buyer = true)
    (hl1 : l.debtor ≠ l.creditor)
    (hl2 : c.is_member l.debtor = true) (hl3 : c.is_member l.creditor = true) :
    (Purchase.delete p c).2 = none
    ∧ Purchase.delete { p with deleted := true } (Purchase.delete p c).1
        = Purchase.delete p c
    ∧ get_purchase_by_id (Purchase.delete p c).1 p.id
        = (get_purchase_by_id c p.id).map (fun _ => { p with deleted := true })
    ∧ (∀ q, get_purchase_by_id (Purchase.delete p c).1 p.id = some q → q.deleted = true)
    ∧ (∀ q, q ∈ ((Purchase.delete p c).1).purchases → q.id ≠ p.id)
    ∧ (Liquidation.delete l c).2 = none
    ∧ Liquidation.delete { l with deleted := true } (Liquidation.delete l c).1
        = Liquidation.delete l c
    ∧ (∀ m, m ∈ ((Liquidation.delete l c).1).liquidationRows → m.id = l.id →
        m.deleted = true) := by
  have hp2 : p.buyer ∈ c.membershipRows := by
    simpa [Collective.is_member] using hp
  have hd2 : l.debtor ∈ c.membershipRows := by
    simpa [Collective.is_member] using hl2
  have hc2 : l.creditor ∈ c.membershipRows := by
    simpa [Collective.is_member] using hl3
  have hpc : Purchase.delete p c
      = ({ c with purchaseRows := c.purchaseRows.map (fun q => if q.id = p.id then { p with deleted := true } else q) }, none) := by
    simp [Purchase.delete, hp]
  have hlc : Liquidation.delete l c
      = ({ c with liquidationRows := c.liquidationRows.map (fun m => if m.id = l.id then { l with deleted := true } else m) }, none) := by
    simp [Liquidation.delete, hl1, hl2, hl3]
  have h3 : get_purchase_by_id (Purchase.delete p c).1 p.id
      = (get_purchase_by_id c p.id).map (fun _ => ({ p with deleted := true } : Purchase)) := by
    rw [hpc]
    exact find_update_by_id c.purchaseRows { p with deleted := true } p.id rfl
  refine ⟨by rw [hpc], ?_, h3, fun q hq => ?_, fun q hq hqid => ?_, by rw [hlc], ?_,
    fun m hm hmid => ?_⟩
  · rw [hpc]
    simp only [Purchase.delete, Collective.is_member]
    split
    · refine congrArg (fun rows => (({ c with purchaseRows := rows } : Collective), (none : Option SaveError))) ?_
      rw [List.map_map]
      apply List.map_congr_left
      intro q _
      by_cases h : q.id = p.id
      · simp [Function.comp, h]
      · simp [Function.comp, h]
    · rename_i hguard
      exact absurd (by simpa using hp2) hguard
  · rw [h3] at hq
    cases hfind : get_purchase_by_id c p.id with
    | none => rw [hfind] at hq; simp at hq
    | some r =>
      rw [hfind] at hq
      have hq2 : ({ p with deleted := true } : Purchase) = q := Option.some.inj hq
      rw [← hq2]
  · rw [hpc] at hq
    have hmem : q ∈ c.purchaseRows.map
        (fun r => if r.id = p.id then { p with deleted := true } else r) :=
      (List.mem_filter.mp hq).1
    have hpred := (List.mem_filter.mp hq).2
    simp only [Bool.and_eq_true, Bool.not_eq_true'] at hpred
    obtain ⟨r, hr, hfr⟩ := List.mem_map.mp hmem
    by_cases h : r.id = p.id
    · rw [if_pos h] at hfr
      rw [← hfr] at hpred
      simp at hpred
    · rw [if_neg h] at hfr
      rw [← hfr] at hqid
      exact h hqid
  · rw [hlc]
    simp only [Liquidation.delete]
    split
    · rename_i hsame
      exact absurd hsame hl1
    split
    · rename_i hguard
      exact absurd hd2 (by simpa [Collective.is_member] using hguard)
    split
    · rename_i hguard
      exact absurd hc2 (by simpa [Collective.is_member] using hguard)
    refine congrArg (fun rows => (({ c with liquidationRows := rows } : Collective), (none : Option SaveError))) ?_
    rw [List.map_map]
    apply List.map_congr_left
    intro m _
    by_cases h : m.id = l.id
    · simp [Function.comp, h]
    · simp [Function.comp, h]
  · rw [hlc] at hm
    have hmem : m ∈ c.liquidationRows.map
        (fun r => if r.id = l.id then { l with deleted := true } else r) := hm
    obtain ⟨r, hr, hfr⟩ := List.mem_map.mp hmem
    by_cases h : r.id = l.id
    · rw [if_pos h] at hfr
      rw [← hfr]
    · rw [if_neg h] at hfr
      rw [← hfr] at hmid
      exact absurd hmid h

/-- Witness for C7 (amended): at `cDel` both guards pass, so deleting
purchase row 2 and the member-to-member liquidation both succeed. -/
theorem soft_delete_lifecycle_witness :
    (Purchase.delete pRow2 cDel).2 = none ∧ (Liquidation.delete exLiq cDel).2 = none :=
  ⟨(soft_delete_lifecycle cDel pRow2 exLiq (by decide) (by decide) (by decide) (by decide)).1,
   (soft_delete_lifecycle cDel pRow2 exLiq (by decide) (by decide) (by decide)
     (by decide)).2.2.2.2.2.1⟩

end Payshare

namespace Payshare

/-- C4 is refuted: the liquidation of `cEx` has its debtor (the inactive
user 2) outside the active member set, yet it passes the filter and is
counted in `overall_debt`. -/
theorem liquidations_pair_in_members_cex :
    exLiq ∈ Collective.liquidations cEx
    ∧ exLiq.debtor ∉ Collective.members cEx
    ∧ Collective.overall_debt cEx = 10 := by
  refine ⟨by decide, by decide, ?_⟩
  norm_num [Collective.overall_debt, Collective.liquidations, Collective.members, cEx, exLiq]

/-- C4 (amended): every liquidation reaching the stats computation is
non-deleted and has at least one endpoint — creditor or debtor — in the
active member set; the source's filter joins the two endpoint conditions
with OR rather than requiring both. -/
theorem liquidations_endpoint_in_members (c : Collective) (l : Liquidation)
    (h : l ∈ c.liquidations) :
    l.deleted = false ∧ (l.creditor ∈ c.members ∨ l.debtor ∈ c.members) := by
  have h2 := (List.mem_filter.mp h).2
  simp only [Bool.and_eq_true, Bool.or_eq_true, Bool.not_eq_true', decide_eq_true_eq] at h2
  exact h2

/-- Witness for C4 (amended) at the liquidation of `cEx`. -/
theorem liquidations_endpoint_in_members_witness :
    exLiq.deleted = false
      ∧ (exLiq.creditor ∈ Collective.members cEx ∨ exLiq.debtor ∈ Collective.members cEx) :=
  liquidations_endpoint_in_members cEx exLiq (by decide)

/-- C9: an inactive user with a membership row passes `is_member` — so
purchases and liquidations naming the user can be persisted — while the
user is absent from the member list, from the purchases entering the
totals, and from the balance entries. -/
theorem inactive_member_guard_vs_stats (c : Collective) (u : User)
    (hids : (c.userRows.map User.id).Nodup)
    (hu : u ∈ c.userRows) (hact : u.is_active = false) (hmem : u.id ∈ c.membershipRows) :
    c.is_member u.id = true
    ∧ u.id ∉ c.members
    ∧ (∀ p : Purchase, p.buyer = u.id → (create_purchase c p).2 = none)
    ∧ (∀ p ∈ c.purchases, p.buyer ≠ u.id)
    ∧ (∀ e ∈ c.sorted_balances, e.1 ≠ u.id) := by
  have hnot : u.id ∉ c.members := by
    intro habs
    obtain ⟨v, hv, hvid⟩ := List.mem_map.mp habs
    have hvrows := (List.mem_filter.mp hv).1
    have hvpred := (List.mem_filter.mp hv).2
    simp only [Bool.and_eq_true, decide_eq_true_eq] at hvpred
    have : v = u := List.inj_on_of_nodup_map hids hvrows hu hvid
    rw [this] at hvpred
    rw [hact] at hvpred
    exact Bool.false_ne_true hvpred.1
  refine ⟨by simp [Collective.is_member, hmem], hnot, fun p hp => ?_, fun p hp => ?_,
    fun e he => ?_⟩
  · simp [create_purchase, Collective.is_member, hp, hmem]
  · intro habs
    have hb := purchases_buyer_mem c p hp
    rw [habs] at hb
    exact hnot hb
  · have he2 : e ∈ c.member_id_to_balance :=
      ((sortDesc_perm c.member_id_to_balance).mem_iff).mp he
    obtain ⟨m, hm, hme⟩ := List.mem_map.mp he2
    intro habs
    rw [← hme] at habs
    have hmu : m = u.id := habs
    rw [hmu] at hm
    exact hnot hm

/-- Witness for C9 at `cEx` with the inactive member 2. -/
theorem inactive_member_guard_vs_stats_witness :
    Collective.is_member cEx exUserB.id = true ∧ exUserB.id ∉ Collective.members cEx :=
  ⟨(inactive_member_guard_vs_stats cEx exUserB (by decide) (by decide) rfl (by decide)).1,
   (inactive_member_guard_vs_stats cEx exUserB (by decide) (by decide) rfl (by decide)).2.1⟩

end Payshare

namespace Payshare

/-- Summing the per-member purchase totals recovers `overall_purchased`
when the member list has no duplicate ids. -/
theorem sum_member_purchased (c : Collective) (hnodup : c.members.Nodup) :
    (c.members.map (fun m => c.member_purchased m)).sum = c.overall_purchased := by
  have h := sum_map_sum_filter Purchase.buyer Purchase.price c.purchases c.members hnodup
  have h2 : c.members.map (fun m =>
      ((c.purchases.filter (fun a => decide (a.buyer = m))).map Purchase.price).sum)
        = c.members.map (fun m => c.member_purchased m) := rfl
  rw [h2] at h
  rw [h]
  have h3 : c.purchases.filter (fun a => decide (a.buyer ∈ c.members)) = c.purchases :=
    List.filter_eq_self.mpr (fun p hp => by
      simp only [decide_eq_true_eq]
      exact purchases_buyer_mem c p hp)
  rw [h3]
  rfl

/-- Summing the per-member credit totals recovers `overall_debt` when
every counted liquidation has its creditor among the members. -/
theorem sum_credit (c : Collective) (hnodup : c.members.Nodup)
    (hliq : ∀ l ∈ c.liquidations, l.creditor ∈ c.members) :
    (c.members.map (fun m => c.credit m)).sum = c.overall_debt := by
  have h := sum_map_sum_filter Liquidation.creditor Liquidation.amount
    c.liquidations c.members hnodup
  have h2 : c.members.map (fun m =>
      ((c.liquidations.filter (fun a => decide (a.creditor = m))).map Liquidation.amount).sum)
        = c.members.map (fun m => c.credit m) := rfl
  rw [h2] at h
  rw [h]
  have h3 : c.liquidations.filter (fun a => decide (a.creditor ∈ c.members))
      = c.liquidations :=
    List.filter_eq_self.mpr (fun l hl => by
      simp only [decide_eq_true_eq]
      exact hliq l hl)
  rw [h3]
  rfl

/-- Summing the per-member debt totals recovers `overall_debt` when
every counted liquidation has its debtor among the members. -/
theorem sum_debt (c : Collective) (hnodup : c.members.Nodup)
    (hliq : ∀ l ∈ c.liquidations, l.debtor ∈ c.members) :
    (c.members.map (fun m => c.debt m)).sum = c.overall_debt := by
  have h := sum_map_sum_filter Liquidation.debtor Liquidation.amount
    c.liquidations c.members hnodup
  have h2 : c.members.map (fun m =>
      ((c.liquidations.filter (fun a => decide (a.debtor = m))).map Liquidation.amount).sum)
        = c.members.map (fun m => c.debt m) := rfl
  rw [h2] at h
  rw [h]
  have h3 : c.liquidations.filter (fun a => decide (a.debtor ∈ c.members))
      = c.liquidations :=
    List.filter_eq_self.mpr (fun l hl => by
      simp only [decide_eq_true_eq]
      exact hliq l hl)
  rw [h3]
  rfl

/-- C1 (amended): the balances produced by `stats` sum to zero exactly —
in the rational embedding of decimal arithmetic — provided the member
ids are distinct and every counted liquidation has both its debtor and
its creditor in the active member set.  The proviso does not follow from
the code: the source's liquidation filter requires only one endpoint to
be a member, and a liquidation whose other endpoint is an inactive
member breaks the zero sum. -/
theorem stats_balances_sum_zero (c : Collective) (s : Stats)
    (hnodup : c.members.Nodup)
    (hliq : ∀ l ∈ c.liquidations, l.debtor ∈ c.members ∧ l.creditor ∈ c.members)
    (hs : c.stats = some s) :
    (s.sorted_balances.map Prod.snd).sum = 0 := by
  unfold Collective.stats at hs
  by_cases hn : c.members.length = 0
  · rw [if_pos hn] at hs
    exact absurd hs (by simp)
  · rw [if_neg hn] at hs
    have hss := Option.some.inj hs
    rw [← hss]
    show ((sortDesc c.member_id_to_balance).map Prod.snd).sum = 0
    rw [sortDesc_map_sum]
    unfold Collective.member_id_to_balance
    rw [List.map_map]
    have hcomp : (Prod.snd ∘ fun m : Nat => (m, c.balance m)) = fun m => c.balance m := rfl
    rw [hcomp]
    have hbal : ∀ m ∈ c.members, c.balance m
        = c.member_purchased m + c.credit m - c.debt m - c.per_member := by
      intro m _
      unfold Collective.balance Collective.has_to_pay
      split
      · rename_i h0
        linarith
      · ring
    rw [List.map_congr_left hbal]
    rw [sum_map_combo c.members (fun m => c.member_purchased m) (fun m => c.credit m)
      (fun m => c.debt m) c.per_member]
    rw [sum_member_purchased c hnodup]
    rw [sum_credit c hnodup (fun l hl => (hliq l hl).2)]
    rw [sum_debt c hnodup (fun l hl => (hliq l hl).1)]
    have hlen : (c.members.length : ℚ) ≠ 0 := Nat.cast_ne_zero.mpr hn
    have hper : (c.members.length : ℚ) * c.per_member = c.overall_purchased := by
      unfold Collective.per_member
      field_simp
    rw [hper]
    ring

/-- Witness for C1 (amended) at `cDel`: both members are active, there
are no liquidations, and the balances 5 and -5 cancel. -/
theorem stats_balances_sum_zero_witness :
    (sDel.sorted_balances.map Prod.snd).sum = 0 :=
  stats_balances_sum_zero cDel sDel (by decide)
    (by
      intro l hl
      have h0 : Collective.liquidations cDel = [] := rfl
      rw [h0] at hl
      exact absurd hl (List.not_mem_nil l))
    (by
      norm_num [Collective.stats, Collective.members, Collective.purchases,
        Collective.liquidations, Collective.overall_purchased, Collective.overall_debt,
        Collective.sorted_balances, Collective.member_id_to_balance, Collective.balance,
        Collective.has_to_pay, Collective.per_member, Collective.member_purchased,
        Collective.credit, Collective.debt, sortDesc, insortDesc, cDel, sDel])

/-- C1 is refuted as stated: at `cEx` the single liquidation is counted
through the OR filter although its debtor is inactive, and the balances
of `sorted_balances` sum to 10, not 0. -/
theorem stats_balances_sum_nonzero_cex :
    (Collective.stats cEx).map (fun s => (s.sorted_balances.map Prod.snd).sum) = some 10
    ∧ some (10 : ℚ) ≠ some (0 : ℚ) := by
  constructor
  · have h : Collective.stats cEx
        = some { overall_purchased := 0, overall_debt := 10, sorted_balances := [(1, 10)] } := by
      norm_num [Collective.stats, Collective.members, Collective.purchases,
        Collective.liquidations, Collective.overall_purchased, Collective.overall_debt,
        Collective.sorted_balances, Collective.member_id_to_balance, Collective.balance,
        Collective.has_to_pay, Collective.per_member, Collective.member_purchased,
        Collective.credit, Collective.debt, sortDesc, insortDesc, cEx]
    rw [h]
    norm_num
  · simp

end Payshare
